import Mathlib

/-!
Shallow embedding of `Challenge_1b/process_documents.py` (class
`PersonaDocumentAnalyzer`): document segmentation, persona/job relevance
scoring, section ranking, sub-passage extraction and the collection
orchestrator, together with proofs of the specification's claims.

Python strings are modelled as Lean `String` / `List Char` (ASCII-faithful),
Python floats as `ℚ` (all scoring arithmetic is exact rational arithmetic),
Python's stable `list.sort(key=..., reverse=True)` as `List.mergeSort` with
the reversed comparison, and the I/O boundary of
`process_document_collection` as explicit `Except`/`Option` parameters.
-/

namespace PersonaDoc

/-! ### Character classes (Python `str`/`re` on ASCII text) -/

/-- Python whitespace (`str.strip`, `str.split`, regex `\s`) restricted to ASCII. -/
def pyWs (c : Char) : Bool :=
  c = ' ' || c = '\t' || c = '\n' || c = '\r' || c = '\x0b' || c = '\x0c'

/-- ASCII letter; with `re.IGNORECASE`, `[A-Z]` and `[a-z]` both match these. -/
def asciiLetter (c : Char) : Bool :=
  ('A' ≤ c && c ≤ 'Z') || ('a' ≤ c && c ≤ 'z')

/-- Regex `\d` on ASCII. -/
def digitChar (c : Char) : Bool := '0' ≤ c && c ≤ '9'

/-- Regex `\w` on ASCII. -/
def wordChar (c : Char) : Bool := asciiLetter c || digitChar c || c = '_'

/-- Python `str.lower()` per character. -/
def toLowerL (l : List Char) : List Char := l.map Char.toLower

/-- Python `str.strip()`: drop whitespace from both ends. -/
def pyStrip (l : List Char) : List Char :=
  ((l.dropWhile pyWs).reverse.dropWhile pyWs).reverse

/-- `startsWithL needle hay`: `hay` begins with `needle`. -/
def startsWithL : List Char → List Char → Bool
  | [], _ => true
  | _ :: _, [] => false
  | n :: ns, h :: hs => n = h && startsWithL ns hs

/-- Python's substring test `needle in hay`. -/
def containsL : List Char → List Char → Bool
  | [], needle => needle.isEmpty
  | h :: t, needle => startsWithL needle (h :: t) || containsL t needle

/-- `runsByAux p l acc` splits `l` into the maximal runs of characters
satisfying `p`, with `acc` the (reversed) run in progress. -/
def runsByAux (p : Char → Bool) : List Char → List Char → List (List Char)
  | [], acc => if acc.isEmpty then [] else [acc.reverse]
  | c :: rest, acc =>
    if p c then runsByAux p rest (c :: acc)
    else if acc.isEmpty then runsByAux p rest []
    else acc.reverse :: runsByAux p rest []

/-- Maximal runs of characters satisfying `p`.  With `p := wordChar` this is
Python's `re.findall(r'\b\w+\b', s)`; with `p := fun c => !pyWs c` it is
`s.split()`. -/
def runsBy (p : Char → Bool) (l : List Char) : List (List Char) :=
  runsByAux p l []

/-! ### The five header regexes of `is_section_header`

All are matched with `re.match(..., re.IGNORECASE)` against the stripped
text, so anchoring is at the start and `[A-Z]`/`[a-z]` match any ASCII
letter. -/

/-- After `\d+\.?`: requires `\s+` then a letter (`[A-Z]`, ignorecase). -/
def letterAfterWs : List Char → Bool
  | [] => false
  | c :: cs => if pyWs c then letterAfterWs cs else asciiLetter c

/-- Regex fragment `\s+[A-Z]` (ignorecase): at least one whitespace then a letter. -/
def wsPlusLetter : List Char → Bool
  | [] => false
  | c :: cs => pyWs c && letterAfterWs cs

/-- Regex `^\d+\.?\s+[A-Z]` (ignorecase): numbered section heading. -/
def matchNumbered (t : List Char) : Bool :=
  let ds := t.takeWhile digitChar
  let r1 := t.dropWhile digitChar
  let r2 := match r1 with
    | '.' :: rest => rest
    | other => other
  !ds.isEmpty && wsPlusLetter r2

/-- Regex `^[A-Z\s]{5,50}$` (ignorecase) on stripped text: 5–50 characters,
all letters or whitespace. -/
def matchCapsSpan (t : List Char) : Bool :=
  5 ≤ t.length && t.length ≤ 50 && t.all (fun c => asciiLetter c || pyWs c)

/-- The hard-coded academic heading keywords of pattern 3. -/
def headingKeywords : List String :=
  ["abstract", "introduction", "methodology", "results", "discussion",
   "conclusion", "references"]

/-- Regex `^(Abstract|Introduction|Methodology|Results|Discussion|Conclusion|References)`
(ignorecase): prefix test on the lowercased text. -/
def matchKeywordStart (t : List Char) : Bool :=
  headingKeywords.any (fun k => startsWithL k.data (toLowerL t))

/-- Regex fragment `\s … \d`: skip whitespace, then require a digit. -/
def firstIsDigitAfterWs : List Char → Bool
  | [] => false
  | c :: cs => if pyWs c then firstIsDigitAfterWs cs else digitChar c

/-- Regex fragment `\s+\d+` (only the first digit matters for a match). -/
def wsPlusDigit : List Char → Bool
  | [] => false
  | c :: cs => pyWs c && firstIsDigitAfterWs cs

/-- `dropPre needle hay`: the remainder of `hay` after prefix `needle`. -/
def dropPre : List Char → List Char → Option (List Char)
  | [], hay => some hay
  | _ :: _, [] => none
  | n :: ns, h :: hs => if n = h then dropPre ns hs else none

/-- Regex `^(Chapter|Section|Part)\s+\d+` (ignorecase). -/
def matchChapterStart (t : List Char) : Bool :=
  let low := toLowerL t
  ["chapter", "section", "part"].any (fun k =>
    match dropPre k.data low with
    | some rest => wsPlusDigit rest
    | none => false)

/-- DFA states for regex `^[A-Z][a-z]+(?:\s+[A-Z][a-z]+)*\s*$` (ignorecase):
`start` before any input, `w1` after one letter of a word, `w` inside a word
of length ≥ 2, `sep` inside whitespace after a complete word, `bad` dead. -/
inductive TW where
  | start : TW
  | w1 : TW
  | w : TW
  | sep : TW
  | bad : TW
deriving DecidableEq

/-- Transition function of the title-words DFA. -/
def twStep (s : TW) (c : Char) : TW :=
  match s with
  | TW.start => if asciiLetter c then TW.w1 else TW.bad
  | TW.w1 => if asciiLetter c then TW.w else TW.bad
  | TW.w =>
    if asciiLetter c then TW.w else if pyWs c then TW.sep else TW.bad
  | TW.sep =>
    if pyWs c then TW.sep else if asciiLetter c then TW.w1 else TW.bad
  | TW.bad => TW.bad

/-- Regex `^[A-Z][a-z]+(?:\s+[A-Z][a-z]+)*\s*$` (ignorecase): whitespace-
separated words of at least two letters, optional trailing whitespace. -/
def matchTitleWords (t : List Char) : Bool :=
  match t.foldl twStep TW.start with
  | TW.w => true
  | TW.sep => true
  | _ => false

/-- `PersonaDocumentAnalyzer.is_section_header`: strip the text, gate on the
stripped length (strictly between 5 and 200), then try the five header
patterns. -/
def is_section_header (s : String) : Bool :=
  let t := pyStrip s.data
  if 5 < t.length && t.length < 200 then
    matchNumbered t || matchCapsSpan t || matchKeywordStart t ||
      matchChapterStart t || matchTitleWords t
  else false

/-! ### Relevance scorer (`calculate_relevance_score`) -/

/-- `self.persona_keywords` (constructor table), in insertion order. -/
def persona_keywords : List (String × List String) :=
  [("researcher", ["methodology", "results", "analysis", "experiment", "data",
      "study", "research", "findings", "hypothesis", "literature"]),
   ("student", ["definition", "example", "concept", "theory", "principle",
      "basics", "fundamentals", "explanation", "overview", "summary"]),
   ("analyst", ["trend", "performance", "metric", "revenue", "growth",
      "market", "financial", "investment", "risk", "return"]),
   ("manager", ["strategy", "implementation", "team", "project", "planning",
      "execution", "leadership", "management", "objectives", "goals"]),
   ("developer", ["code", "implementation", "algorithm", "technical", "system",
      "architecture", "framework", "api", "database", "optimization"]),
   ("consultant", ["recommendation", "solution", "best practice", "assessment",
      "evaluation", "improvement", "process", "efficiency", "optimization"])]

/-- `self.academic_keywords`. -/
def academic_keywords : List String :=
  ["abstract", "introduction", "methodology", "results", "discussion",
   "conclusion", "references", "literature review"]

/-- `self.business_keywords`. -/
def business_keywords : List String :=
  ["executive summary", "financial", "revenue", "profit", "market",
   "strategy", "competitive", "analysis"]

/-- `identify_persona_type`: keyword table of the persona heuristic, in
Python dict insertion order. -/
def persona_mappings : List (String × List String) :=
  [("researcher", ["researcher", "scientist", "phd", "academic"]),
   ("student", ["student", "undergraduate", "graduate", "learner"]),
   ("analyst", ["analyst", "investment", "financial", "business analyst"]),
   ("manager", ["manager", "director", "executive", "leader"]),
   ("developer", ["developer", "engineer", "programmer", "technical"]),
   ("consultant", ["consultant", "advisor", "specialist"])]

/-- `identify_persona_type`: first persona type one of whose keywords occurs
as a substring of the (lowercased) persona label; `"general"` otherwise. -/
def identify_persona_type (persona : List Char) : String :=
  match persona_mappings.find? (fun pk =>
      pk.2.any (fun k => containsL persona k.data)) with
  | some pk => pk.1
  | none => "general"

/-- Factor 1: job-description keyword overlap, weight 40.
`|job_words ∩ text_words| / |job_words| * 40`, or 0 when the job
description has no word tokens. -/
def job_overlap_score (text_lower job_lower : List Char) : ℚ :=
  let job_words := (runsBy wordChar job_lower).dedup
  let text_words := (runsBy wordChar text_lower).dedup
  let common_words := job_words.filter (fun w => text_words.contains w)
  if job_words.isEmpty then 0
  else ((common_words.length : ℚ) / (job_words.length : ℚ)) * 40

/-- Factor 2: persona-keyword coverage, weight 30.  The fraction of the
matched persona type's keywords occurring as substrings of the text. -/
def persona_score (text_lower : List Char) (persona_type : String) : ℚ :=
  match persona_keywords.find? (fun pk => pk.1 = persona_type) with
  | some pk =>
    let persona_words := pk.2
    let persona_matches := persona_words.countP
      (fun w => containsL text_lower w.data)
    ((persona_matches : ℚ) / (persona_words.length : ℚ)) * 30
  | none => 0

/-- Factor 3: academic/business context bonus, 5 points per matched keyword;
the two sub-checks are independent. -/
def context_score (text_lower job_lower : List Char) : ℚ :=
  (if ["research", "study", "academic", "paper"].any
      (fun k => containsL job_lower k.data)
   then ((academic_keywords.countP (fun k => containsL text_lower k.data) : ℚ)) * 5
   else 0) +
  (if ["business", "financial", "market", "revenue"].any
      (fun k => containsL job_lower k.data)
   then ((business_keywords.countP (fun k => containsL text_lower k.data) : ℚ)) * 5
   else 0)

/-- Factor 4: length bonus, `min(word_count/100, 10)` once the
whitespace-delimited word count exceeds 100. -/
def length_score (text : List Char) : ℚ :=
  let word_count := (runsBy (fun c => !pyWs c) text).length
  if 100 < word_count then min ((word_count : ℚ) / 100) 10 else 0

/-- `PersonaDocumentAnalyzer.calculate_relevance_score`: the four additive
factors on the lowercased text, capped at 100. -/
def calculate_relevance_score (text persona job_description : String) : ℚ :=
  let text_lower := toLowerL text.data
  let persona_lower := toLowerL persona.data
  let job_lower := toLowerL job_description.data
  let score :=
    job_overlap_score text_lower job_lower +
    persona_score text_lower (identify_persona_type persona_lower) +
    context_score text_lower job_lower +
    length_score text.data
  min score 100

/-! ### Data model -/

/-- One extracted paragraph record (`extract_document_text` output item):
`{'document', 'page', 'section_id', 'text', 'word_count'}`; the derived
fields `section_id`/`word_count` are recomputable and not needed by the
claims, so the model keeps document, page and text. -/
structure TextBlock where
  document : String
  page : Nat
  text : String
deriving DecidableEq, Repr

/-- A section dict as built by `identify_sections` and enriched by
`rank_sections` (`relevance_score` starts absent in Python; modelled as a
field initialised to 0 and overwritten before use). -/
structure Section where
  document : String
  page : Nat
  section_title : String
  content : List TextBlock
  importance_rank : Nat
  relevance_score : ℚ
deriving DecidableEq, Repr

/-- A sub-passage record as built by `extract_subsections`. -/
structure Passage where
  document : String
  page_number : Nat
  refined_text : String
  relevance_score : ℚ
deriving DecidableEq, Repr

/-! ### Section segmentation (`identify_sections`) -/

/-- Title derivation: `text[:100] + "..." if len(text) > 100 else text`. -/
def derive_title (s : String) : String :=
  if 100 < s.data.length then String.mk (s.data.take 100) ++ "..." else s

/-- The section opened at a header block. -/
def header_section (b : TextBlock) : Section :=
  { document := b.document, page := b.page,
    section_title := derive_title b.text,
    content := [b], importance_rank := 0, relevance_score := 0 }

/-- The fallback section opened at orphaned content. -/
def orphan_section (b : TextBlock) : Section :=
  { document := b.document, page := b.page,
    section_title := "Section starting at page " ++ toString b.page,
    content := [b], importance_rank := 0, relevance_score := 0 }

/-- The scan of `identify_sections`: `cur` is the open `current_section`;
completed sections are emitted in order. -/
def identify_sections_aux (cur : Option Section) : List TextBlock → List Section
  | [] =>
    match cur with
    | none => []
    | some c => [c]
  | b :: rest =>
    if is_section_header b.text then
      match cur with
      | some c => c :: identify_sections_aux (some (header_section b)) rest
      | none => identify_sections_aux (some (header_section b)) rest
    else
      match cur with
      | some c =>
        identify_sections_aux (some { c with content := c.content ++ [b] }) rest
      | none => identify_sections_aux (some (orphan_section b)) rest

/-- `PersonaDocumentAnalyzer.identify_sections`. -/
def identify_sections (document_data : List TextBlock) : List Section :=
  identify_sections_aux none document_data

/-! ### Sub-passage extraction (`extract_subsections`) -/

/-- Sentence delimiters of `re.split(r'[.!?]+', text)`. -/
def sentenceDelim (c : Char) : Bool := c = '.' || c = '!' || c = '?'

/-- Right fold computing `re.split(r'[.!?]+', ·)`: the Bool records whether
the head piece was freshly opened by a delimiter (so a longer delimiter run
does not open another piece). -/
def splitDelimsR : List Char → List (List Char) × Bool
  | [] => ([[]], false)
  | c :: rest =>
    let pr := splitDelimsR rest
    if sentenceDelim c then
      if pr.2 then (pr.1, true) else ([] :: pr.1, true)
    else
      (match pr.1 with
       | [] => [[c]]
       | p :: ps => (c :: p) :: ps, false)

/-- `re.split(r'[.!?]+', text)`: pieces between maximal delimiter runs,
including empty leading/trailing pieces. -/
def splitDelims (l : List Char) : List (List Char) := (splitDelimsR l).1

/-- `range(0, len(sentences), 4)` slicing: take the slice `[i:i+4]`, step
past it, repeat.  The fuel argument (instantiated with the list length, an
upper bound on the number of slices) keeps the recursion structural. -/
def chunks4Go : Nat → List α → List (List α)
  | 0, _ => []
  | _ + 1, [] => []
  | n + 1, a :: t => ((a :: t).take 4) :: chunks4Go n ((a :: t).drop 4)

/-- Chunks of 4 consecutive sentences (the last one possibly shorter). -/
def chunks4 (l : List α) : List (List α) := chunks4Go l.length l

/-- `'. '.join(s.strip() for s in chunk if s.strip())`. -/
def joinChunk (chunk : List (List Char)) : List Char :=
  List.intercalate ['.', ' ']
    ((chunk.map pyStrip).filter (fun s => !s.isEmpty))

/-- The joined texts of one block's sentence chunks, in order. -/
def block_chunks (b : TextBlock) : List (List Char) :=
  (chunks4 (splitDelims b.text.data)).map joinChunk

/-- All chunk texts of a section, in block order. -/
def section_chunks (s : Section) : List (List Char) :=
  s.content.flatMap block_chunks

/-- The scored passages surviving the `len(subsection_text) > 50` filter,
in construction order. -/
def candidate_passages (s : Section) (persona job_description : String) :
    List Passage :=
  s.content.flatMap (fun b =>
    (block_chunks b).filterMap (fun t =>
      if 50 < t.length then
        some { document := b.document, page_number := b.page,
               refined_text := String.mk t,
               relevance_score :=
                 calculate_relevance_score (String.mk t) persona job_description }
      else none))

/-- The comparison of `subsections.sort(key=lambda x: x['relevance_score'],
reverse=True)`: stable descending order by score. -/
def passage_le (a b : Passage) : Bool :=
  decide (b.relevance_score ≤ a.relevance_score)

/-- `PersonaDocumentAnalyzer.extract_subsections`: score the chunks longer
than 50 characters, sort stably by descending score, return the top 10. -/
def extract_subsections (s : Section) (persona job_description : String) :
    List Passage :=
  ((candidate_passages s persona job_description).mergeSort passage_le).take 10

/-! ### Section ranking (`rank_sections`) -/

/-- `' '.join(item['text'] for item in section['content'])`. -/
def section_text (s : Section) : String :=
  String.mk (List.intercalate [' '] (s.content.map (fun b => b.text.data)))

/-- The per-section scoring pass of `rank_sections`. -/
def score_section (persona job_description : String) (s : Section) : Section :=
  { s with relevance_score :=
      calculate_relevance_score (section_text s) persona job_description }

/-- The comparison of `sections.sort(key=lambda x: x['relevance_score'],
reverse=True)`. -/
def section_le (a b : Section) : Bool :=
  decide (b.relevance_score ≤ a.relevance_score)

/-- The `for i, section in enumerate(sections): section['importance_rank'] = i + 1`
pass, started at position `n`. -/
def assign_ranks : Nat → List Section → List Section
  | _, [] => []
  | n, s :: t => { s with importance_rank := n + 1 } :: assign_ranks (n + 1) t

/-- `PersonaDocumentAnalyzer.rank_sections`: score every section on its
joined text, sort stably by descending score, assign ranks 1, 2, …. -/
def rank_sections (sections : List Section) (persona job_description : String) :
    List Section :=
  assign_ranks 0
    ((sections.map (score_section persona job_description)).mergeSort section_le)

/-! ### Collection orchestration (`process_document_collection`)

The I/O boundary is made explicit: reading and parsing the configuration
file is an `Except String Config` (an `error` value is any exception caught
by the handler — unreadable file, malformed JSON, missing key), document
resolution/extraction is a function `String → Option (List TextBlock)`
(`none` models `doc_path.exists()` being false, the skip-with-warning path),
and `datetime.now().isoformat()` is the explicit `now` argument. -/

/-- The parsed `challenge1b_input.json` fields the code reads. -/
structure Config where
  persona : String
  job_to_be_done : String
  documents : List String
deriving DecidableEq, Repr

/-- The `metadata` object of the output record. -/
structure Metadata where
  input_documents : List String
  persona : String
  job_to_be_done : String
  processing_timestamp : String
  error : Option String
deriving DecidableEq, Repr

/-- One entry of `extracted_sections`. -/
structure ExtractedSection where
  document : String
  page_number : Nat
  section_title : String
  importance_rank : Nat
deriving DecidableEq, Repr

/-- The output record of `process_document_collection`. -/
structure Output where
  metadata : Metadata
  extracted_sections : List ExtractedSection
  sub_section_analysis : List Passage
deriving DecidableEq, Repr

/-- The projection into `extracted_sections`. -/
def project_section (s : Section) : ExtractedSection :=
  { document := s.document, page_number := s.page,
    section_title := s.section_title, importance_rank := s.importance_rank }

/-- The success path of `process_document_collection` (lines 246–294). -/
def assemble (config : Config) (extract : String → Option (List TextBlock))
    (now : String) : Output :=
  let all_document_data :=
    (config.documents.map (fun d => (extract d).getD [])).flatten
  let all_sections := identify_sections all_document_data
  let ranked_sections :=
    rank_sections all_sections config.persona config.job_to_be_done
  let top_sections := ranked_sections.take 20
  let extracted_sections := top_sections.map project_section
  let sub_section_analysis :=
    (top_sections.filter (fun s => s.importance_rank ≤ 10)).flatMap
      (fun s =>
        (extract_subsections s config.persona config.job_to_be_done).take 3)
  { metadata :=
      { input_documents := config.documents, persona := config.persona,
        job_to_be_done := config.job_to_be_done,
        processing_timestamp := now, error := none },
    extracted_sections := extracted_sections,
    sub_section_analysis := sub_section_analysis }

/-- The `except Exception` fallback record (lines 296–308). -/
def error_output (e : String) (now : String) : Output :=
  { metadata :=
      { input_documents := [], persona := "", job_to_be_done := "",
        processing_timestamp := now, error := some e },
    extracted_sections := [], sub_section_analysis := [] }

/-- `PersonaDocumentAnalyzer.process_document_collection`: the success path
on a readable configuration, the fallback record when reading/parsing it
raised. -/
def process_document_collection (input : Except String Config)
    (extract : String → Option (List TextBlock)) (now : String) : Output :=
  match input with
  | Except.ok config => assemble config extract now
  | Except.error e => error_output e now

/-- Erase the only nondeterministic field (`processing_timestamp`). -/
def strip_timestamp (o : Output) : Output :=
  { o with metadata := { o.metadata with processing_timestamp := "" } }

/-! ### Specification predicates and concrete sample inputs -/

/-- The ranking contract of `rank_sections`: ranks are exactly `1..N` in
output order, output is in descending score order, and two input sections
with equal computed scores keep their input order (the earlier one gets the
smaller rank). -/
def rank_sections_ok (sections : List Section)
    (persona job_description : String) : Prop :=
  let out := rank_sections sections persona job_description
  out.map Section.importance_rank = List.range' 1 sections.length ∧
  out.Pairwise (fun a b => b.relevance_score ≤ a.relevance_score) ∧
  ∀ (i j : Nat) (si sj : Section), i < j →
    sections[i]? = some si → sections[j]? = some sj →
    (score_section persona job_description si).relevance_score =
      (score_section persona job_description sj).relevance_score →
    ∃ p q, p < q ∧
      out[p]? = some { score_section persona job_description si with
                        importance_rank := p + 1 } ∧
      out[q]? = some { score_section persona job_description sj with
                        importance_rank := q + 1 }

/-- A block whose text is exactly 50 characters, contains no sentence
delimiter and no surrounding whitespace: its single sentence chunk joins to
exactly 50 characters. -/
def block50 : TextBlock :=
  { document := "doc1.pdf", page := 1,
    text := "abcdefghijabcdefghijabcdefghijabcdefghijabcdefghij" }

/-- A section holding only `block50`. -/
def section50 : Section :=
  { document := "doc1.pdf", page := 1, section_title := "t",
    content := [block50], importance_rank := 0, relevance_score := 0 }

/-- Sample section for witnesses (empty content, hence joined text `""`). -/
def sectionA : Section :=
  { document := "a.pdf", page := 1, section_title := "ta",
    content := [], importance_rank := 0, relevance_score := 0 }

/-- Second sample section; same (empty) joined text as `sectionA`, so the
two compute equal relevance scores. -/
def sectionB : Section :=
  { document := "b.pdf", page := 2, section_title := "tb",
    content := [], importance_rank := 0, relevance_score := 0 }

/-- Sample configuration whose only document will not resolve. -/
def configMissing : Config :=
  { persona := "researcher", job_to_be_done := "study the methodology",
    documents := ["ghost.pdf"] }

/-! ## Theorems -/

/-! ### Helper lemmas -/

theorem length_dropWhile_le (p : Char → Bool) (l : List Char) :
    (l.dropWhile p).length ≤ l.length := by
  induction l with
  | nil => simp
  | cons a t ih =>
    rw [List.dropWhile_cons]
    split
    · exact Nat.le_trans ih (Nat.le_succ _)
    · exact Nat.le_refl _

theorem pyStrip_length_le (l : List Char) : (pyStrip l).length ≤ l.length := by
  unfold pyStrip
  calc ((l.dropWhile pyWs).reverse.dropWhile pyWs).reverse.length
      = ((l.dropWhile pyWs).reverse.dropWhile pyWs).length := List.length_reverse _
    _ ≤ (l.dropWhile pyWs).reverse.length := length_dropWhile_le _ _
    _ = (l.dropWhile pyWs).length := List.length_reverse _
    _ ≤ l.length := length_dropWhile_le _ _

theorem job_overlap_score_nonneg (t j : List Char) : 0 ≤ job_overlap_score t j := by
  unfold job_overlap_score
  dsimp only
  split
  · exact le_refl 0
  · have h1 : (0 : ℚ) ≤ (((runsBy wordChar j).dedup.filter
        (fun w => ((runsBy wordChar t).dedup).contains w)).length : ℚ) :=
      Nat.cast_nonneg _
    have h2 : (0 : ℚ) ≤ (((runsBy wordChar j).dedup).length : ℚ) := Nat.cast_nonneg _
    exact mul_nonneg (div_nonneg h1 h2) (by norm_num)

theorem persona_score_nonneg (t : List Char) (pt : String) :
    0 ≤ persona_score t pt := by
  unfold persona_score
  split
  · exact mul_nonneg (div_nonneg (Nat.cast_nonneg _) (Nat.cast_nonneg _)) (by norm_num)
  · exact le_refl 0

theorem context_score_nonneg (t j : List Char) : 0 ≤ context_score t j := by
  unfold context_score
  apply add_nonneg
  · split
    · exact mul_nonneg (Nat.cast_nonneg _) (by norm_num)
    · exact le_refl 0
  · split
    · exact mul_nonneg (Nat.cast_nonneg _) (by norm_num)
    · exact le_refl 0

theorem length_score_nonneg (t : List Char) : 0 ≤ length_score t := by
  unfold length_score
  dsimp only
  split
  · exact le_min (div_nonneg (Nat.cast_nonneg _) (by norm_num)) (by norm_num)
  · exact le_refl 0

/-- The raw (uncapped) score is non-negative. -/
theorem raw_score_nonneg (text persona job_description : String) :
    0 ≤ job_overlap_score (toLowerL text.data) (toLowerL job_description.data) +
        persona_score (toLowerL text.data)
          (identify_persona_type (toLowerL persona.data)) +
        context_score (toLowerL text.data) (toLowerL job_description.data) +
        length_score text.data := by
  have h1 := job_overlap_score_nonneg (toLowerL text.data) (toLowerL job_description.data)
  have h2 := persona_score_nonneg (toLowerL text.data)
    (identify_persona_type (toLowerL persona.data))
  have h3 := context_score_nonneg (toLowerL text.data) (toLowerL job_description.data)
  have h4 := length_score_nonneg text.data
  linarith

/-! ### C1 -/

/-- C1: `calculate_relevance_score` always returns a value in the closed
interval `[0, 100]`, for every text, persona and job string (including
empty strings). -/
theorem calculate_relevance_score_bounds (text persona job_description : String) :
    0 ≤ calculate_relevance_score text persona job_description ∧
      calculate_relevance_score text persona job_description ≤ 100 := by
  unfold calculate_relevance_score
  constructor
  · exact le_min (raw_score_nonneg text persona job_description) (by norm_num)
  · exact min_le_right _ _

/-! ### C2 -/

/-- The running content of the open section. -/
theorem identify_sections_aux_flatten (l : List TextBlock) :
    ∀ cur : Option Section,
      ((identify_sections_aux cur l).map Section.content).flatten =
        (match cur with | none => [] | some c => c.content) ++ l.flatMap (fun b => [b]) := by
  induction l with
  | nil =>
    intro cur
    cases cur <;> simp [identify_sections_aux]
  | cons b rest ih =>
    intro cur
    cases cur with
    | none =>
      by_cases h : is_section_header b.text = true
      · simp [identify_sections_aux, h, ih, header_section]
      · simp [identify_sections_aux, h, ih, orphan_section]
    | some c =>
      by_cases h : is_section_header b.text = true
      · simp [identify_sections_aux, h, ih, header_section]
      · simp [identify_sections_aux, h, ih]

theorem identify_sections_aux_nonempty (l : List TextBlock) :
    ∀ cur : Option Section,
      (∀ c, cur = some c → c.content ≠ []) →
      ∀ s ∈ identify_sections_aux cur l, s.content ≠ [] := by
  induction l with
  | nil =>
    intro cur hcur s hs
    cases cur with
    | none => simp [identify_sections_aux] at hs
    | some c =>
      simp [identify_sections_aux] at hs
      exact hs ▸ hcur c rfl
  | cons b rest ih =>
    intro cur hcur s hs
    cases cur with
    | none =>
      by_cases h : is_section_header b.text = true
      · simp only [identify_sections_aux, h, if_true] at hs
        refine ih (some (header_section b)) ?_ s hs
        intro c hc
        cases hc
        simp [header_section]
      · simp only [identify_sections_aux, h] at hs
        refine ih (some (orphan_section b)) ?_ s hs
        intro c hc
        cases hc
        simp [orphan_section]
    | some c =>
      by_cases h : is_section_header b.text = true
      · simp only [identify_sections_aux, h, if_true, List.mem_cons] at hs
        rcases hs with hs | hs
        · exact hs ▸ hcur c rfl
        · refine ih (some (header_section b)) ?_ s hs
          intro c' hc'
          cases hc'
          simp [header_section]
      · simp only [identify_sections_aux, h] at hs
        refine ih (some { c with content := c.content ++ [b] }) ?_ s hs
        intro c' hc'
        cases hc'
        simp

/-- C2: `identify_sections` partitions its input — the concatenation of the
produced sections' contents, in emission order, is exactly the input block
sequence (so every block lands in exactly one section), and every produced
section holds at least one block. -/
theorem identify_sections_partition (document_data : List TextBlock) :
    ((identify_sections document_data).map Section.content).flatten = document_data ∧
      ∀ s ∈ identify_sections document_data, s.content ≠ [] := by
  constructor
  · have h := identify_sections_aux_flatten document_data none
    simpa [identify_sections] using h
  · exact identify_sections_aux_nonempty document_data none (by intro c hc; cases hc)

/-! ### C3 -/

theorem section_le_total (a b : Section) : (section_le a b || section_le b a) = true := by
  unfold section_le
  rcases le_total b.relevance_score a.relevance_score with h | h <;> simp [h]

theorem section_le_trans (a b c : Section) :
    section_le a b = true → section_le b c = true → section_le a c = true := by
  unfold section_le
  intro h1 h2
  simp only [decide_eq_true_eq] at *
  exact le_trans h2 h1

theorem assign_ranks_length (n : Nat) (l : List Section) :
    (assign_ranks n l).length = l.length := by
  induction l generalizing n with
  | nil => rfl
  | cons s t ih => simp [assign_ranks, ih]

theorem assign_ranks_map_rank (n : Nat) (l : List Section) :
    (assign_ranks n l).map Section.importance_rank = List.range' (n + 1) l.length := by
  induction l generalizing n with
  | nil => rfl
  | cons s t ih => simp [assign_ranks, ih, List.range'_succ]

theorem assign_ranks_map_score (n : Nat) (l : List Section) :
    (assign_ranks n l).map Section.relevance_score = l.map Section.relevance_score := by
  induction l generalizing n with
  | nil => rfl
  | cons s t ih => simp [assign_ranks, ih]

theorem assign_ranks_getElem? (l : List Section) :
    ∀ (n k : Nat), (assign_ranks n l)[k]? =
      l[k]?.map (fun s => { s with importance_rank := n + k + 1 }) := by
  induction l with
  | nil => intro n k; simp [assign_ranks]
  | cons s t ih =>
    intro n k
    cases k with
    | zero => simp [assign_ranks]
    | succ k =>
      simp only [assign_ranks, List.getElem?_cons_succ, ih]
      have h : n + 1 + k + 1 = n + (k + 1) + 1 := by omega
      rw [h]

/-- Transfer of descending-score pairwise ordering through `assign_ranks`. -/
theorem assign_ranks_pairwise_score (n : Nat) (l : List Section)
    (h : l.Pairwise (fun a b => b.relevance_score ≤ a.relevance_score)) :
    (assign_ranks n l).Pairwise (fun a b => b.relevance_score ≤ a.relevance_score) := by
  have h1 : ((assign_ranks n l).map Section.relevance_score).Pairwise
      (fun x y => y ≤ x) := by
    rw [assign_ranks_map_score]
    exact List.pairwise_map.mpr h
  exact List.pairwise_map.mp h1

/-- C3: for every non-empty list of sections and any persona/job context,
`rank_sections` assigns importance ranks that are exactly `1..N` in output
order (no ties, no gaps), orders the output by descending relevance score,
and on equal scores keeps the input order, the earlier section receiving
the smaller (better) rank. -/
theorem rank_sections_spec (sections : List Section)
    (persona job_description : String) (_hne : sections ≠ []) :
    rank_sections_ok sections persona job_description := by
  unfold rank_sections_ok
  have hout : rank_sections sections persona job_description =
      assign_ranks 0 ((sections.map (score_section persona job_description)).mergeSort
        section_le) := rfl
  set scored := sections.map (score_section persona job_description) with hscored
  set sorted := scored.mergeSort section_le with hsorted
  have hlen : sorted.length = sections.length := by
    rw [hsorted, List.length_mergeSort, hscored, List.length_map]
  have hpw_sorted : sorted.Pairwise (fun a b => section_le a b = true) :=
    List.sorted_mergeSort section_le_trans section_le_total scored
  refine ⟨?_, ?_, ?_⟩
  · rw [hout, assign_ranks_map_rank, hlen]
  · rw [hout]
    refine assign_ranks_pairwise_score 0 sorted (hpw_sorted.imp ?_)
    intro a b hab
    simpa [section_le] using hab
  · intro i j si sj hij hi hj hscore
    obtain ⟨hilt, hieq⟩ := List.getElem?_eq_some_iff.mp hi
    obtain ⟨hjlt, hjeq⟩ := List.getElem?_eq_some_iff.mp hj
    -- the two blocks form a sublist of the input, in input order
    have hdropi : sections[i] :: sections.drop (i + 1) = sections.drop i :=
      List.getElem_cons_drop sections i hilt
    have hsj_mem : sj ∈ sections.drop (i + 1) := by
      have hq : (sections.drop (i + 1))[j - (i + 1)]? = sections[j]? := by
        rw [List.getElem?_drop]
        congr 1
        omega
      exact List.getElem?_mem (hq.trans hj)
    have hsub : List.Sublist [si, sj] sections := by
      have h1 : List.Sublist [sj] (sections.drop (i + 1)) :=
        List.singleton_sublist.mpr hsj_mem
      have h2 : List.Sublist [si, sj] (sections[i] :: sections.drop (i + 1)) := by
        rw [hieq]
        exact h1.cons₂ si
      rw [hdropi] at h2
      exact h2.trans (List.drop_sublist i sections)
    have hsubScored :
        List.Sublist [score_section persona job_description si,
          score_section persona job_description sj] scored := by
      have := hsub.map (score_section persona job_description)
      simpa [hscored] using this
    have hab : section_le (score_section persona job_description si)
        (score_section persona job_description sj) = true := by
      simp [section_le, le_of_eq hscore.symm]
    have hpair : List.Sublist [score_section persona job_description si,
        score_section persona job_description sj] sorted :=
      List.pair_sublist_mergeSort section_le_trans section_le_total hab hsubScored
    obtain ⟨is, hmap, hpw⟩ := List.sublist_eq_map_getElem hpair
    rcases is with _ | ⟨p, _ | ⟨q, _ | ⟨r, t⟩⟩⟩
    · simp at hmap
    · simp at hmap
    · have hpq : (p : Nat) < (q : Nat) := by
        have := List.pairwise_cons.mp hpw
        exact this.1 q (List.mem_singleton.mpr rfl)
      simp only [List.map_cons, List.map_nil, List.cons.injEq, and_true] at hmap
      obtain ⟨hp_eq, hq_eq⟩ := hmap
      refine ⟨p, q, hpq, ?_, ?_⟩
      · rw [hout, assign_ranks_getElem?]
        simp [List.getElem?_eq_getElem p.isLt, hp_eq]
      · rw [hout, assign_ranks_getElem?]
        simp [List.getElem?_eq_getElem q.isLt, hq_eq]
    · have := congrArg List.length hmap
      simp at this

/-- Witness for C3: two concrete sections with equal computed scores. -/
theorem rank_sections_spec_witness :
    rank_sections_ok [sectionA, sectionB] "researcher" "study" :=
  rank_sections_spec [sectionA, sectionB] "researcher" "study" (by simp)

/-! ### C4 -/

/-- Per text-block: the surviving passages' texts are exactly the block's
chunk texts longer than 50 characters. -/
theorem filterMap_passage_texts (doc : String) (pg : Nat)
    (persona job_description : String) (l : List (List Char)) :
    (l.filterMap (fun t =>
        if 50 < t.length then
          some { document := doc, page_number := pg,
                 refined_text := String.mk t,
                 relevance_score :=
                   calculate_relevance_score (String.mk t) persona job_description }
        else (none : Option Passage))).map (fun x => x.refined_text.data) =
      l.filter (fun t => 50 < t.length) := by
  induction l with
  | nil => rfl
  | cons t ts ih =>
    by_cases h : 50 < t.length
    · simp [List.filterMap_cons, h, ih]
    · simp [List.filterMap_cons, h, ih]

/-- The scored candidate pool of `extract_subsections` holds exactly the
sentence chunks whose joined text is longer than 50 characters. -/
theorem candidate_passages_texts (s : Section) (persona job_description : String) :
    (candidate_passages s persona job_description).map (fun x => x.refined_text.data) =
      (section_chunks s).filter (fun t => 50 < t.length) := by
  unfold candidate_passages section_chunks
  generalize s.content = l
  induction l with
  | nil => rfl
  | cons b rest ih =>
    simp only [List.flatMap_cons, List.map_append, List.filter_append, ih]
    congr 1
    exact filterMap_passage_texts b.document b.page persona job_description
      (block_chunks b)

/-- C4 (amended): `extract_subsections` returns at most 10 passages, never
one whose text is under 50 characters, and the scored pool consists of
exactly the chunks whose joined text is strictly longer than 50 characters
(a chunk is discarded exactly when its joined text has 50 or fewer
characters). -/
theorem extract_subsections_spec (s : Section) (persona job_description : String) :
    (extract_subsections s persona job_description).length ≤ 10 ∧
    (∀ x ∈ extract_subsections s persona job_description,
        ¬ x.refined_text.length < 50) ∧
    (candidate_passages s persona job_description).map (fun x => x.refined_text.data) =
      (section_chunks s).filter (fun t => 50 < t.length) := by
  refine ⟨?_, ?_, candidate_passages_texts s persona job_description⟩
  · exact List.length_take_le 10 _
  · intro x hx
    have hx1 : x ∈ candidate_passages s persona job_description :=
      List.mem_mergeSort.mp (List.mem_of_mem_take hx)
    have hx2 : x.refined_text.data ∈
        (section_chunks s).filter (fun t => 50 < t.length) := by
      rw [← candidate_passages_texts s persona job_description]
      exact List.mem_map_of_mem _ hx1
    have h50 : 50 < x.refined_text.data.length := by
      have := (List.mem_filter.mp hx2).2
      simpa using this
    have hlen : x.refined_text.length = x.refined_text.data.length := rfl
    omega

/-- C4 counterexample: `section50`'s single sentence chunk joins to exactly
50 characters — "50 characters or longer", which the claim says is scored
and eligible — yet the code discards it (`> 50` is strict), so no passage
is produced at all. -/
theorem extract_subsections_fifty_discarded :
    (section_chunks section50).map List.length = [50] ∧
      extract_subsections section50 "researcher" "study" = [] := by
  constructor
  · rfl
  · have h : candidate_passages section50 "researcher" "study" = [] := rfl
    show ((candidate_passages section50 "researcher" "study").mergeSort
        passage_le).take 10 = []
    rw [h, List.mergeSort_nil]
    rfl

/-! ### C5 -/

theorem passage_le_total (a b : Passage) : (passage_le a b || passage_le b a) = true := by
  unfold passage_le
  rcases le_total b.relevance_score a.relevance_score with h | h <;> simp [h]

theorem passage_le_trans (a b c : Passage) :
    passage_le a b = true → passage_le b c = true → passage_le a c = true := by
  unfold passage_le
  intro h1 h2
  simp only [decide_eq_true_eq] at *
  exact le_trans h2 h1

/-- `extract_subsections` output is in descending score order. -/
theorem extract_subsections_sorted (s : Section) (persona job_description : String) :
    (extract_subsections s persona job_description).Pairwise
      (fun a b => b.relevance_score ≤ a.relevance_score) := by
  have h := List.sorted_mergeSort passage_le_trans passage_le_total
    (candidate_passages s persona job_description)
  have h2 := List.Pairwise.sublist (List.take_sublist 10 _) h
  refine h2.imp ?_
  intro a b hab
  simpa [passage_le] using hab

/-- C5: on the success path the output's `extracted_sections` has at most 20
entries, in strictly ascending `importance_rank` order, and
`sub_section_analysis` is the concatenation, over the rank-≤-10 sections of
the top 20 in rank order, of that section's top-3 passages — so it contains
passages only from sections ranked ≤ 10, at most 3 per such section, each
group internally in descending score order. -/
theorem assemble_output_spec (config : Config)
    (extract : String → Option (List TextBlock)) (now : String) :
    let out := assemble config extract now
    let ranked := rank_sections
      (identify_sections
        ((config.documents.map (fun d => (extract d).getD [])).flatten))
      config.persona config.job_to_be_done
    let qualifying := (ranked.take 20).filter (fun s => s.importance_rank ≤ 10)
    out.extracted_sections.length ≤ 20 ∧
    (out.extracted_sections.map ExtractedSection.importance_rank).Pairwise (· < ·) ∧
    out.sub_section_analysis =
      qualifying.flatMap (fun s =>
        (extract_subsections s config.persona config.job_to_be_done).take 3) ∧
    (∀ s ∈ qualifying, s.importance_rank ≤ 10) ∧
    (∀ s ∈ qualifying,
      ((extract_subsections s config.persona config.job_to_be_done).take 3).length ≤ 3 ∧
      ((extract_subsections s config.persona config.job_to_be_done).take 3).Pairwise
        (fun a b => b.relevance_score ≤ a.relevance_score)) := by
  intro out ranked qualifying
  refine ⟨?_, ?_, rfl, ?_, ?_⟩
  · show (((ranked.take 20).map project_section).length) ≤ 20
    simp only [List.length_map, List.length_take]
    exact Nat.min_le_left _ _
  · show ((((ranked.take 20).map project_section)).map
      ExtractedSection.importance_rank).Pairwise (· < ·)
    have h1 : (((ranked.take 20).map project_section)).map
        ExtractedSection.importance_rank =
        (ranked.map Section.importance_rank).take 20 := by
      rw [List.map_map, List.map_take]
      rfl
    have hr : ranked = assign_ranks 0
        (((identify_sections
            ((config.documents.map (fun d => (extract d).getD [])).flatten)).map
          (score_section config.persona config.job_to_be_done)).mergeSort
            section_le) := rfl
    rw [h1, hr, assign_ranks_map_rank]
    exact List.Pairwise.sublist (List.take_sublist 20 _)
      (List.pairwise_lt_range' _ _)
  · intro s hs
    have := (List.mem_filter.mp hs).2
    simpa using this
  · intro s hs
    exact ⟨List.length_take_le 3 _,
      List.Pairwise.sublist (List.take_sublist 3 _)
        (extract_subsections_sorted s config.persona config.job_to_be_done)⟩

/-! ### C6 -/

/-- C6: the collection boundary never lets a failure escape: any failure in
reading or parsing the configuration (the `Except.error` input of the
embedding) yields the fallback record — empty `extracted_sections`, empty
`sub_section_analysis`, and the failure description in the metadata `error`
field.  (Totality of `process_document_collection` is the embedded form of
"never raises past this boundary".) -/
theorem process_collection_error_contained (e : String)
    (extract : String → Option (List TextBlock)) (now : String) :
    process_document_collection (Except.error e) extract now = error_output e now ∧
    (process_document_collection (Except.error e) extract now).extracted_sections = [] ∧
    (process_document_collection (Except.error e) extract now).sub_section_analysis = [] ∧
    (process_document_collection (Except.error e) extract now).metadata.error = some e :=
  ⟨rfl, rfl, rfl, rfl⟩

/-! ### C7 -/

/-- C7: the pipeline is deterministic — two runs on the same input and
configuration differ at most in the processing timestamp (the only
nondeterministic input, made explicit here as the `now` argument). -/
theorem process_collection_deterministic (input : Except String Config)
    (extract : String → Option (List TextBlock)) (now₁ now₂ : String) :
    strip_timestamp (process_document_collection input extract now₁) =
      strip_timestamp (process_document_collection input extract now₂) := by
  cases input <;> rfl

/-! ### C8 -/

/-- C8 (amended): `is_section_header` returns `true` only if the
whitespace-stripped text's length is strictly between 5 and 200; the raw
string's length is therefore strictly greater than 5, but — because the
gate is applied after stripping — it may reach 200 or more. -/
theorem is_section_header_length_gate (s : String) (h : is_section_header s = true) :
    5 < (pyStrip s.data).length ∧ (pyStrip s.data).length < 200 ∧ 5 < s.length := by
  unfold is_section_header at h
  dsimp only at h
  split at h
  case isTrue hc =>
    simp only [Bool.and_eq_true, decide_eq_true_eq] at hc
    refine ⟨hc.1, hc.2, ?_⟩
    have h1 := pyStrip_length_le s.data
    have h2 : s.length = s.data.length := rfl
    omega
  case isFalse hc => exact absurd h (by simp)

/-- Witness for C8's amended gate at the header text `"Introduction"`. -/
theorem is_section_header_length_gate_witness :
    is_section_header "Introduction" = true ∧
      (5 < (pyStrip "Introduction".data).length ∧
        (pyStrip "Introduction".data).length < 200 ∧ 5 < "Introduction".length) :=
  ⟨by decide, is_section_header_length_gate "Introduction" (by decide)⟩

set_option maxRecDepth 8000 in
/-- C8 counterexample: a 200-character input (a header padded with trailing
spaces) is still classified as a header, so `is_section_header s = true`
does not imply `s.length < 200` — the length gate reads the stripped text. -/
theorem is_section_header_long_string :
    is_section_header ("Introduction" ++ String.mk (List.replicate 188 ' ')) = true ∧
      ¬ ("Introduction" ++ String.mk (List.replicate 188 ' ')).length < 200 := by
  refine ⟨by decide, by decide⟩

/-! ### C9 -/

/-- C9: when no listed document resolves, the success path still runs and
produces empty `extracted_sections` and `sub_section_analysis`, while the
metadata keeps the requested document list and carries no error field. -/
theorem assemble_all_documents_missing (config : Config)
    (extract : String → Option (List TextBlock)) (now : String)
    (h : ∀ d ∈ config.documents, extract d = none) :
    (assemble config extract now).extracted_sections = [] ∧
    (assemble config extract now).sub_section_analysis = [] ∧
    (assemble config extract now).metadata.input_documents = config.documents ∧
    (assemble config extract now).metadata.error = none := by
  have hdata : (config.documents.map (fun d => (extract d).getD [])).flatten = [] := by
    rw [List.flatten_eq_nil_iff]
    intro l hl
    obtain ⟨d, hd, rfl⟩ := List.mem_map.mp hl
    rw [h d hd]
    rfl
  have hassemble : assemble config extract now =
      { metadata :=
          { input_documents := config.documents, persona := config.persona,
            job_to_be_done := config.job_to_be_done,
            processing_timestamp := now, error := none },
        extracted_sections := [], sub_section_analysis := [] } := by
    unfold assemble
    rw [hdata]
    simp [identify_sections, identify_sections_aux, rank_sections, assign_ranks]
  exact ⟨by rw [hassemble], by rw [hassemble], by rw [hassemble], by rw [hassemble]⟩

/-- Witness for C9: a concrete configuration whose only document is
unresolvable. -/
theorem assemble_all_documents_missing_witness :
    (assemble configMissing (fun _ => none) "ts").extracted_sections = [] ∧
    (assemble configMissing (fun _ => none) "ts").sub_section_analysis = [] ∧
    (assemble configMissing (fun _ => none) "ts").metadata.input_documents =
      configMissing.documents ∧
    (assemble configMissing (fun _ => none) "ts").metadata.error = none :=
  assemble_all_documents_missing configMissing (fun _ => none) "ts"
    (by intro d _; rfl)

/-! ### C10 -/

/-- C10: the error-path record does not echo the requested configuration:
its metadata has an empty document list, empty persona and empty job
string, alongside the error description — only the success path copies the
configuration into metadata. -/
theorem error_path_metadata_blank (e : String)
    (extract : String → Option (List TextBlock)) (now : String) :
    (process_document_collection (Except.error e) extract now).metadata.input_documents
        = [] ∧
    (process_document_collection (Except.error e) extract now).metadata.persona = "" ∧
    (process_document_collection (Except.error e) extract now).metadata.job_to_be_done
        = "" ∧
    (process_document_collection (Except.error e) extract now).metadata.error = some e :=
  ⟨rfl, rfl, rfl, rfl⟩

end PersonaDoc
